import Mathlib

/-!
Verification of the rate-acquisition and conversion pipeline of a
browser-based currency conversion widget (src/scripts/app.js and
src/unnamed/part_000, which differ only in UI plumbing for the code paths
modelled here).

Shallow embedding choices:
* JavaScript numbers are modelled by `JsNum`: NaN, the two infinities, and
  finite values carried as exact rationals.  Finite arithmetic is exact
  (the spec's "full floating-point precision" is idealised to exact
  arithmetic); the NaN/infinity propagation rules of `/`, `*`, `-` and the
  comparison and truthiness rules follow JavaScript.
* A JavaScript object used as a rate map is an association list
  (`RateStore`); property read on a missing key is `undefined`, which is
  falsy and coerces to NaN in arithmetic (`jsOfOpt`).
* `toFixed n` is modelled by the numeric value it prints for finite
  arguments: round half up on the magnitude, at `n` decimal digits.
* DOM writes, alerts and console logging are dropped; the branch structure
  and the data each branch produces are kept, as an explicit result type.
-/

namespace CurrencyApp

/-- Model of a JavaScript number: NaN, positive and negative infinity, or a
finite value represented exactly as a rational. -/
inductive JsNum where
  | nan : JsNum
  | inf : JsNum
  | ninf : JsNum
  | fin : ℚ → JsNum
  deriving DecidableEq, Repr

/-- JavaScript `isNaN` on a number. -/
def jsIsNaN : JsNum → Bool
  | .nan => true
  | _ => false

/-- JavaScript `x <= 0` on a number (false on NaN). -/
def jsLeZero : JsNum → Bool
  | .nan => false
  | .inf => false
  | .ninf => true
  | .fin q => q ≤ 0

/-- JavaScript `x > 0` on a number (false on NaN). -/
def jsGtZero : JsNum → Bool
  | .nan => false
  | .inf => true
  | .ninf => false
  | .fin q => 0 < q

/-- JavaScript `x < 0` on a number (false on NaN). -/
def jsLtZero : JsNum → Bool
  | .nan => false
  | .inf => false
  | .ninf => true
  | .fin q => q < 0

/-- Truthiness of a JavaScript number: NaN and 0 are falsy, everything else
(including the infinities) is truthy. -/
def jsTruthy : JsNum → Bool
  | .nan => false
  | .inf => true
  | .ninf => true
  | .fin q => q ≠ 0

/-- JavaScript division on numbers.  Signs of zero are not modelled (the
rationals have a single zero), which matches every use in this program:
all divisors are either truthy store entries or values derived from them. -/
def jsDiv : JsNum → JsNum → JsNum
  | .nan, _ => .nan
  | .inf, .nan => .nan
  | .ninf, .nan => .nan
  | .fin _, .nan => .nan
  | .inf, .inf => .nan
  | .inf, .ninf => .nan
  | .ninf, .inf => .nan
  | .ninf, .ninf => .nan
  | .inf, .fin q => if 0 ≤ q then .inf else .ninf
  | .ninf, .fin q => if 0 ≤ q then .ninf else .inf
  | .fin _, .inf => .fin 0
  | .fin _, .ninf => .fin 0
  | .fin a, .fin b =>
      if b = 0 then (if 0 < a then .inf else if a < 0 then .ninf else .nan)
      else .fin (a / b)

/-- JavaScript multiplication on numbers. -/
def jsMul : JsNum → JsNum → JsNum
  | .nan, _ => .nan
  | .inf, .nan => .nan
  | .ninf, .nan => .nan
  | .fin _, .nan => .nan
  | .inf, .inf => .inf
  | .inf, .ninf => .ninf
  | .ninf, .inf => .ninf
  | .ninf, .ninf => .inf
  | .inf, .fin q => if 0 < q then .inf else if q < 0 then .ninf else .nan
  | .ninf, .fin q => if 0 < q then .ninf else if q < 0 then .inf else .nan
  | .fin q, .inf => if 0 < q then .inf else if q < 0 then .ninf else .nan
  | .fin q, .ninf => if 0 < q then .ninf else if q < 0 then .inf else .nan
  | .fin a, .fin b => .fin (a * b)

/-- JavaScript subtraction on numbers. -/
def jsSub : JsNum → JsNum → JsNum
  | .nan, _ => .nan
  | .inf, .nan => .nan
  | .ninf, .nan => .nan
  | .fin _, .nan => .nan
  | .inf, .inf => .nan
  | .inf, .ninf => .inf
  | .inf, .fin _ => .inf
  | .ninf, .inf => .ninf
  | .ninf, .ninf => .nan
  | .ninf, .fin _ => .ninf
  | .fin _, .inf => .ninf
  | .fin _, .ninf => .inf
  | .fin a, .fin b => .fin (a - b)

/-- Rounding used by `Number.prototype.toFixed`: nearest, ties upward, on
the magnitude (toFixed of a negative number negates toFixed of its
absolute value). -/
def jsRoundHalfUp (q : ℚ) : ℤ := ⌊q + 1 / 2⌋

/-- Numeric value printed by `x.toFixed(n)` for a finite `x`. -/
def toFixedQ (n : ℕ) (q : ℚ) : ℚ :=
  if 0 ≤ q then (jsRoundHalfUp (q * 10 ^ n) : ℚ) / 10 ^ n
  else -((jsRoundHalfUp (-q * 10 ^ n) : ℚ) / 10 ^ n)

/-- toFixed lifted to JsNum: non-finite values print as the strings
"Infinity", "-Infinity", "NaN"; we keep the value itself. -/
def jsToFixed (n : ℕ) : JsNum → JsNum
  | .fin q => .fin (toFixedQ n q)
  | .nan => .nan
  | .inf => .inf
  | .ninf => .ninf

/-- Currency codes ("USD", "EUR", ...). -/
abbrev CurrencyCode := String

/-- A JavaScript object mapping currency codes to rate values, as an
association list (`currencyRates` in the source). -/
abbrev RateStore := List (CurrencyCode × JsNum)

/-- Property read `store[c]`: first binding of the key, `undefined`
(`none`) when absent. -/
def storeLookup : RateStore → CurrencyCode → Option JsNum
  | [], _ => none
  | (k, v) :: rest, c => if k = c then some v else storeLookup rest c

/-- Property write `store[c] = v`: replace in place if the key exists,
append otherwise. -/
def storeSet : RateStore → CurrencyCode → JsNum → RateStore
  | [], c, v => [(c, v)]
  | (k, w) :: rest, c, v =>
      if k = c then (c, v) :: rest else (k, w) :: storeSet rest c v

/-- Truthiness of a property read: `undefined` is falsy. -/
def jsTruthyOpt : Option JsNum → Bool
  | none => false
  | some v => jsTruthy v

/-- Numeric coercion of a property read: `undefined` becomes NaN in
arithmetic. -/
def jsOfOpt : Option JsNum → JsNum
  | none => .nan
  | some v => v

/-- Result of `updateConversion`, one constructor per early-return branch
of the source plus the success path.  `ok` carries the intermediate
`baseValue`, the full-precision `result` (total) and `rate`, and the two
displayed values (`rate.toFixed(4)` and `result.toFixed(2)`). -/
inductive ConvResult where
  | notReady : ConvResult
  | invalidAmount : ConvResult
  | missingRate : ConvResult
  | ok (baseValue total rate rateDisplay totalDisplay : JsNum) : ConvResult
  deriving DecidableEq, Repr

/-- Embedding of `updateConversion` (src/scripts/app.js lines 215-249).
`amount` is `parseFloat($fromAmount.value)` (NaN when unparsable). -/
def updateConversion (hasRatesLoaded : Bool) (amount : JsNum)
    (fromCurrency toCurrency : CurrencyCode) (store : RateStore) : ConvResult :=
  if !hasRatesLoaded then .notReady
  else if jsIsNaN amount || jsLeZero amount then .invalidAmount
  else if !jsTruthyOpt (storeLookup store fromCurrency)
          || !jsTruthyOpt (storeLookup store toCurrency) then .missingRate
  else
    let rf := jsOfOpt (storeLookup store fromCurrency)
    let rt := jsOfOpt (storeLookup store toCurrency)
    let baseValue := jsDiv amount rf
    let result := jsMul baseValue rt
    let rate := jsDiv rt rf
    .ok baseValue result rate (jsToFixed 4 rate) (jsToFixed 2 result)

/-- Full-precision converted total of a conversion result (NaN when the
conversion did not reach its arithmetic). -/
def convTotal : ConvResult → JsNum
  | .ok _ total _ _ _ => total
  | _ => .nan

/-- The constant `API_BASE_CURRENCY`. -/
def apiBaseCurrency : CurrencyCode := "USD"

/-- Parsed body of a successful `GET {API}/latest?from={base}` response:
the `base` field and the `rates` object. -/
structure FetchData where
  base : CurrencyCode
  rates : RateStore
  deriving DecidableEq, Repr

/-- The cached rate snapshot document (`saveRatesCache` payload): the
serialised rates and the base; the ISO timestamp carries no data the
pipeline reads back beyond display, and is omitted. -/
structure Snapshot where
  rates : RateStore
  base : CurrencyCode
  deriving DecidableEq, Repr

/-- The mutable session state the fetch/conversion pipeline reads and
writes: `currencyRates`, `isOfflineMode`, `hasRatesLoaded`. -/
structure SessionState where
  currencyRates : RateStore
  isOfflineMode : Bool
  hasRatesLoaded : Bool
  deriving DecidableEq, Repr

/-- Result of a `fetchRates` call: the session state after the call, the
cache document after the call (`saveRatesCache` writes it on success),
the backoff delays slept in order (milliseconds), and the returned
boolean. -/
structure FetchResult where
  state : SessionState
  cache : Option Snapshot
  delays : List ℕ
  success : Bool
  deriving Repr

/-- Loop body of `fetchRates` (src/scripts/app.js lines 118-147).  The
`fetcher` gives attempt `i`'s outcome: `none` for a non-ok status or
network error (the `catch` path), `some data` for a parsed success.
`fuel` counts the iterations left; `fuel = i_remaining` so the last
iteration (`i == retries - 1`) is the one entered with `fuel = 1`.
On success the store is replaced by `data.rates` with `rates[data.base] = 1`
injected, `hasRatesLoaded` is set, and `saveRatesCache` runs (a write that
happens when `db` is present and the store is non-empty; a successful
write is assumed, write failures being logged and not surfaced).  On the
last failure, `loadRatesCache` runs: with `db` and a cached document it
replaces the store with the parsed snapshot rates and sets
`isOfflineMode`; otherwise it fails and `hasRatesLoaded` is cleared. -/
def fetchRatesGo (fetcher : ℕ → Option FetchData) (db : Bool)
    (cache : Option Snapshot) (st : SessionState) : ℕ → ℕ → FetchResult
  | _, 0 => ⟨st, cache, [], false⟩
  | i, Nat.succ rem =>
    match fetcher i with
    | some data =>
        let newStore := storeSet data.rates data.base (.fin 1)
        let st1 : SessionState := ⟨newStore, st.isOfflineMode, true⟩
        let cache1 := if db && !newStore.isEmpty
          then some ⟨newStore, apiBaseCurrency⟩ else cache
        ⟨st1, cache1, [], true⟩
    | none =>
        if rem = 0 then
          match db, cache with
          | true, some snap =>
              ⟨⟨snap.rates, true, true⟩, cache, [], true⟩
          | true, none =>
              ⟨⟨st.currencyRates, st.isOfflineMode, false⟩, cache, [], false⟩
          | false, _ =>
              ⟨⟨st.currencyRates, st.isOfflineMode, false⟩, cache, [], false⟩
        else
          let r := fetchRatesGo fetcher db cache st (i + 1) rem
          ⟨r.state, r.cache, 2 ^ i * 1000 :: r.delays, r.success⟩

/-- Embedding of `fetchRates(base, retries)` (src/scripts/app.js lines
113-149): clears the offline flag, then runs the retry loop from attempt
index 0. -/
def fetchRates (fetcher : ℕ → Option FetchData) (db : Bool)
    (cache : Option Snapshot) (st : SessionState) (retries : ℕ) : FetchResult :=
  fetchRatesGo fetcher db cache ⟨st.currencyRates, false, st.hasRatesLoaded⟩ 0 retries

/-- One date's worth of the historical series body: the parsed epoch time
of the date key and `data.rates[date][to]` (`none` when the target
currency is absent for that date). -/
structure HistEntry where
  date : ℕ
  toRate : Option JsNum
  deriving DecidableEq, Repr

/-- A point kept by the filter: `{ date, rate }`. -/
structure HistPoint where
  date : ℕ
  rate : JsNum
  deriving DecidableEq, Repr

/-- Trend direction shown by the historical widget. -/
inductive Direction where
  | increased : Direction
  | decreased : Direction
  | stable : Direction
  deriving DecidableEq, Repr

/-- Result of `fetchHistoricalRates`, one constructor per rendered
message: the offline/not-loaded guard, the transport-error catch, the
missing-or-empty `data.rates` message, the "not enough data points
(count)" message, and the trend summary (start and end point, absolute
change, `percentageChange` as the toFixed(2) value, and direction). -/
inductive HistResult where
  | requiresLive : HistResult
  | failure : HistResult
  | noData : HistResult
  | empty (count : ℕ) : HistResult
  | trend (startPoint endPoint : HistPoint) (change percentChange : JsNum)
      (direction : Direction) : HistResult
  deriving DecidableEq, Repr

/-- Outcome of the historical fetch: the catch path, or a parsed body
whose `rates` field may be absent. -/
inductive HistFetchOutcome where
  | fail : HistFetchOutcome
  | ok (rates : Option (List HistEntry)) : HistFetchOutcome

/-- Filter step: keep the dates whose target-currency rate is present and
truthy (`if (data.rates[date][to])`). -/
def histFilter (entries : List HistEntry) : List HistPoint :=
  entries.filterMap fun e =>
    match e.toRate with
    | some v => if jsTruthy v then some ⟨e.date, v⟩ else none
    | none => none

/-- Stable insertion into a date-ascending list (the comparator
`new Date(a.date) - new Date(b.date)`). -/
def histInsert (p : HistPoint) : List HistPoint → List HistPoint
  | [] => [p]
  | q :: rest => if p.date < q.date then p :: q :: rest else q :: histInsert p rest

/-- Ascending stable sort by date of the filtered points. -/
def histSort : List HistPoint → List HistPoint
  | [] => []
  | p :: rest => histInsert p (histSort rest)

/-- Points the analyzer works on: filtered then sorted ascending. -/
def histPoints (entries : List HistEntry) : List HistPoint :=
  histSort (histFilter entries)

/-- Dummy point used only to state head/last of a list known non-empty. -/
def dummyPoint : HistPoint := ⟨0, .nan⟩

/-- Embedding of `fetchHistoricalRates` (src/scripts/app.js lines
151-212), from the parsed response onward; URL construction and the date
window are transport concerns carried by `outcome`. -/
def fetchHistoricalRates (hasRatesLoaded isOfflineMode : Bool)
    (outcome : HistFetchOutcome) : HistResult :=
  if !hasRatesLoaded || isOfflineMode then .requiresLive
  else
    match outcome with
    | .fail => .failure
    | .ok none => .noData
    | .ok (some entries) =>
        if entries.isEmpty then .noData
        else
          let rates := histPoints entries
          if rates.length < 2 then .empty rates.length
          else
            let startPoint := rates.headD dummyPoint
            let endPoint := rates.getLastD dummyPoint
            let change := jsSub endPoint.rate startPoint.rate
            let percentageChange :=
              jsToFixed 2 (jsMul (jsDiv change startPoint.rate) (.fin 100))
            let direction : Direction :=
              if jsGtZero change then .increased
              else if jsLtZero change then .decreased
              else .stable
            .trend startPoint endPoint change percentageChange direction

/-- Whole-session state relevant to the rate-store invariant: the session
variables together with the cache document. -/
structure SysState where
  session : SessionState
  cache : Option Snapshot
  deriving Repr

/-- Session start: `currencyRates = {}`, flags clear, no cache document
written yet. -/
def initSys : SysState := ⟨⟨[], false, false⟩, none⟩

/-- One store-replacing operation of the session: a `fetchRates` call with
the default `retries = 3` (the only call site passes the default), which
internally covers both replacement paths — live-fetch success and cache
load. -/
def runFetch (db : Bool) (fetcher : ℕ → Option FetchData) (s : SysState) : SysState :=
  let r := fetchRates fetcher db s.cache s.session 3
  ⟨r.state, r.cache⟩

/-- A session trace: the sequence of `fetchRates` calls, each with the
attempt outcomes its fetcher produced. -/
def runTrace (db : Bool) : List (ℕ → Option FetchData) → SysState → SysState
  | [], s => s
  | f :: fs, s => runTrace db fs (runFetch db f s)

/-- The base-self-rate invariant: whenever rates are loaded the store maps
the base currency to exactly 1, and any cached snapshot's rates do too. -/
def baseSelfRate (s : SysState) : Prop :=
  (s.session.hasRatesLoaded = true →
    storeLookup s.session.currencyRates apiBaseCurrency = some (.fin 1))
  ∧ (∀ snap, s.cache = some snap →
      storeLookup snap.rates apiBaseCurrency = some (.fin 1))

/-- A small concrete store used to exercise the conversion path. -/
def demoStore : RateStore := [("USD", .fin 1), ("EUR", .fin (9 / 10))]

/-- A store whose EUR entry is the falsy rate 0. -/
def zeroRateStore : RateStore := [("USD", .fin 1), ("EUR", .fin 0)]

/-- A fetcher that fails on attempt 0 and succeeds on attempt 1 (success
on the second of three attempts). -/
def fetcherSecond : ℕ → Option FetchData :=
  fun i => if i = 1 then some ⟨"USD", [("EUR", .fin (9 / 10))]⟩ else none

/-- A fetcher that fails on every attempt. -/
def fetcherFails : ℕ → Option FetchData := fun _ => none

/-- A fetcher that succeeds immediately. -/
def fetcherFirst : ℕ → Option FetchData :=
  fun _ => some ⟨"USD", [("EUR", .fin (9 / 10))]⟩

/-- A concrete cached snapshot. -/
def demoSnapshot : Snapshot := ⟨demoStore, "USD"⟩

/-- Historical series with two dates, rates 1.10 then 1.20. -/
def twoPointEntries : List HistEntry :=
  [⟨1, some (.fin (11 / 10))⟩, ⟨2, some (.fin (6 / 5))⟩]

/-- Historical series with a single date. -/
def onePointEntries : List HistEntry := [⟨1, some (.fin (3 / 2))⟩]

/-! Helper lemmas shared by the claim theorems. -/

/-- Reading back the key just written into a store. -/
theorem storeLookup_storeSet (s : RateStore) (c : CurrencyCode) (v : JsNum) :
    storeLookup (storeSet s c v) c = some v := by
  induction s with
  | nil => simp [storeSet, storeLookup]
  | cons kv rest ih =>
    obtain ⟨k, w⟩ := kv
    by_cases h : k = c <;> simp [storeSet, storeLookup, h, ih]

/-- Shape of a conversion that passes all three guards, with finite
nonzero rates: the source formulas, displays rounded to 4 and 2 digits. -/
theorem updateConversion_fin (x rf rt : ℚ) (store : RateStore)
    (fc tc : CurrencyCode) (hx : 0 < x)
    (hf : storeLookup store fc = some (.fin rf)) (hrf : rf ≠ 0)
    (ht : storeLookup store tc = some (.fin rt)) (hrt : rt ≠ 0) :
    updateConversion true (.fin x) fc tc store =
      .ok (.fin (x / rf)) (.fin (x / rf * rt)) (.fin (rt / rf))
        (.fin (toFixedQ 4 (rt / rf))) (.fin (toFixedQ 2 (x / rf * rt))) := by
  simp [updateConversion, hf, ht, jsTruthyOpt, jsTruthy, jsOfOpt, jsIsNaN,
    jsLeZero, jsDiv, jsMul, jsToFixed, hrf, hrt, hx.not_le]

/-- C1: for a store containing both currencies (finite nonzero rates) and
a positive finite amount, the conversion computes baseValue = amount /
store[from], total = baseValue * store[to], display rate = store[to] /
store[from], with the displayed rate rounded to 4 decimal digits and the
displayed total to 2, while the carried total and rate are the
full-precision values. -/
theorem c1_convert_formulas (x rf rt : ℚ) (store : RateStore)
    (fc tc : CurrencyCode) (hx : 0 < x)
    (hf : storeLookup store fc = some (.fin rf)) (hrf : rf ≠ 0)
    (ht : storeLookup store tc = some (.fin rt)) (hrt : rt ≠ 0) :
    updateConversion true (.fin x) fc tc store =
      .ok (.fin (x / rf)) (.fin (x / rf * rt)) (.fin (rt / rf))
        (.fin (toFixedQ 4 (rt / rf))) (.fin (toFixedQ 2 (x / rf * rt))) :=
  updateConversion_fin x rf rt store fc tc hx hf hrf ht hrt

/-- Witness for C1 at amount 5, USD to EUR with rate 0.9. -/
theorem c1_convert_formulas_witness :
    updateConversion true (.fin 5) "USD" "EUR" demoStore =
      .ok (.fin (5 / 1)) (.fin (5 / 1 * (9 / 10))) (.fin (9 / 10 / 1))
        (.fin (toFixedQ 4 (9 / 10 / 1))) (.fin (toFixedQ 2 (5 / 1 * (9 / 10)))) :=
  c1_convert_formulas 5 1 (9 / 10) demoStore "USD" "EUR"
    (by norm_num) rfl (by norm_num) rfl (by norm_num)

/-- C6: the full-precision conversion total is linear in the amount:
converting x equals converting 1 multiplied by x. -/
theorem c6_linearity (x rf rt : ℚ) (store : RateStore) (a b : CurrencyCode)
    (hx : 0 < x)
    (ha : storeLookup store a = some (.fin rf)) (hrf : 0 < rf)
    (hb : storeLookup store b = some (.fin rt)) (hrt : 0 < rt) :
    convTotal (updateConversion true (.fin x) a b store) =
      jsMul (convTotal (updateConversion true (.fin 1) a b store)) (.fin x) := by
  rw [updateConversion_fin x rf rt store a b hx ha hrf.ne' hb hrt.ne',
    updateConversion_fin 1 rf rt store a b one_pos ha hrf.ne' hb hrt.ne']
  simp [convTotal, jsMul]
  ring

/-- Witness for C6 at amount 5, USD to EUR with rate 0.9. -/
theorem c6_linearity_witness :
    convTotal (updateConversion true (.fin 5) "USD" "EUR" demoStore) =
      jsMul (convTotal (updateConversion true (.fin 1) "USD" "EUR" demoStore))
        (.fin 5) :=
  c6_linearity 5 1 (9 / 10) demoStore "USD" "EUR"
    (by norm_num) rfl (by norm_num) rfl (by norm_num)

/-- C7: converting a currency to itself yields the full-precision rate 1
(displayed as 1.0000) and a displayed total equal to the amount rounded
to 2 decimals. -/
theorem c7_same_currency (x r : ℚ) (store : RateStore) (a : CurrencyCode)
    (hx : 0 < x) (ha : storeLookup store a = some (.fin r)) (hr : 0 < r) :
    updateConversion true (.fin x) a a store =
      .ok (.fin (x / r)) (.fin x) (.fin 1) (.fin 1) (.fin (toFixedQ 2 x)) := by
  rw [updateConversion_fin x r r store a a hx ha hr.ne' ha hr.ne',
    div_mul_cancel₀ x hr.ne', div_self hr.ne']
  norm_num [toFixedQ, jsRoundHalfUp]

/-- Witness for C7 at amount 5, EUR to EUR with rate 0.9. -/
theorem c7_same_currency_witness :
    updateConversion true (.fin 5) "EUR" "EUR" demoStore =
      .ok (.fin (5 / (9 / 10))) (.fin 5) (.fin 1) (.fin 1)
        (.fin (toFixedQ 2 5)) :=
  c7_same_currency 5 (9 / 10) demoStore "EUR" (by norm_num) rfl (by norm_num)

/-- C10: the missing-rate guard rejects every falsy rate value, so a store
entry of 0 or NaN for either currency yields MissingRate; conversely, a
conversion that reaches its arithmetic has truthy (hence nonzero,
non-NaN) rates for both currencies. -/
theorem c10_falsy_rate_guard (amount : JsNum) (fc tc : CurrencyCode)
    (store : RateStore)
    (hnan : jsIsNaN amount = false) (hpos : jsLeZero amount = false) :
    ((storeLookup store fc = some (.fin 0) ∨ storeLookup store fc = some .nan
        ∨ storeLookup store tc = some (.fin 0)
        ∨ storeLookup store tc = some .nan) →
      updateConversion true amount fc tc store = .missingRate)
    ∧ (∀ b t r rd td,
        updateConversion true amount fc tc store = .ok b t r rd td →
        jsTruthyOpt (storeLookup store fc) = true
        ∧ jsTruthyOpt (storeLookup store tc) = true) := by
  constructor
  · intro h
    rcases h with h | h | h | h <;>
      simp [updateConversion, hnan, hpos, h, jsTruthyOpt, jsTruthy]
  · intro b t r rd td h
    cases hfc : jsTruthyOpt (storeLookup store fc) <;>
      cases htc : jsTruthyOpt (storeLookup store tc)
    · simp [updateConversion, hnan, hpos, hfc, htc] at h
    · simp [updateConversion, hnan, hpos, hfc, htc] at h
    · simp [updateConversion, hnan, hpos, hfc, htc] at h
    · exact ⟨rfl, rfl⟩

/-- Witness for C10: a zero EUR rate makes conversion report MissingRate. -/
theorem c10_falsy_rate_guard_witness :
    updateConversion true (.fin 5) "EUR" "USD" zeroRateStore =
      ConvResult.missingRate :=
  (c10_falsy_rate_guard (.fin 5) "EUR" "USD" zeroRateStore
    (by decide) (by decide)).1 (Or.inl (by decide))

/-- C3 counterexample: with rates loaded and both currencies present, the
amount Infinity is not rejected as InvalidAmount — the guard
`isNaN(amount) || amount <= 0` passes it through to the arithmetic, which
produces an infinite baseValue and total. -/
theorem c3_infinity_not_rejected :
    updateConversion true .inf "USD" "EUR" demoStore =
      .ok .inf .inf (.fin (9 / 10)) (.fin (toFixedQ 4 (9 / 10))) .inf
    ∧ updateConversion true .inf "USD" "EUR" demoStore ≠
        ConvResult.invalidAmount := by
  have hUSD : storeLookup demoStore "USD" = some (JsNum.fin 1) := rfl
  have hEUR : storeLookup demoStore "EUR" = some (JsNum.fin (9 / 10)) := rfl
  have h : updateConversion true .inf "USD" "EUR" demoStore =
      .ok .inf .inf (.fin (9 / 10)) (.fin (toFixedQ 4 (9 / 10))) .inf := by
    simp [updateConversion, hUSD, hEUR, jsTruthyOpt, jsTruthy, jsOfOpt,
      jsIsNaN, jsLeZero, jsDiv, jsMul, jsToFixed,
      (by norm_num : (9 / 10 : ℚ) ≠ 0), (by norm_num : (0 : ℚ) < 9 / 10)]
  exact ⟨h, by rw [h]; exact fun hc => ConvResult.noConfusion hc⟩

/-- C3 (amended): the preconditions are checked in order — rates loaded
(else NotReady), then amount not NaN and not ≤ 0 (else InvalidAmount),
then both rates present and truthy (else MissingRate); the amount guard
is only isNaN-or-nonpositive, so the non-finite amount Infinity passes it
and is never rejected as InvalidAmount. -/
theorem c3_precondition_order (amount : JsNum) (fc tc : CurrencyCode)
    (store : RateStore) :
    updateConversion false amount fc tc store = ConvResult.notReady
    ∧ ((jsIsNaN amount || jsLeZero amount) = true →
        updateConversion true amount fc tc store = ConvResult.invalidAmount)
    ∧ ((jsIsNaN amount || jsLeZero amount) = false →
        (jsTruthyOpt (storeLookup store fc)
          && jsTruthyOpt (storeLookup store tc)) = false →
        updateConversion true amount fc tc store = ConvResult.missingRate)
    ∧ updateConversion true JsNum.inf fc tc store ≠ ConvResult.invalidAmount := by
  refine ⟨rfl, ?_, ?_, ?_⟩
  · intro h
    simp [updateConversion, h]
  · intro h1 h2
    cases ha : jsTruthyOpt (storeLookup store fc) <;>
      cases hb : jsTruthyOpt (storeLookup store tc)
    · simp [updateConversion, h1, ha, hb]
    · simp [updateConversion, h1, ha, hb]
    · simp [updateConversion, h1, ha, hb]
    · rw [ha, hb] at h2
      simp at h2
  · intro hc
    simp only [updateConversion, jsIsNaN, jsLeZero, Bool.or_self,
      Bool.not_true, Bool.false_eq_true, if_false] at hc
    split at hc
    · exact ConvResult.noConfusion hc
    · exact ConvResult.noConfusion hc

/-- Witness for C3 (amended) at concrete inputs: an empty store, amounts
5, NaN and Infinity. -/
theorem c3_precondition_order_witness :
    updateConversion false (.fin 5) "USD" "EUR" ([] : RateStore) =
        ConvResult.notReady
    ∧ updateConversion true .nan "USD" "EUR" ([] : RateStore) =
        ConvResult.invalidAmount
    ∧ updateConversion true (.fin 5) "USD" "EUR" ([] : RateStore) =
        ConvResult.missingRate
    ∧ updateConversion true .inf "USD" "EUR" ([] : RateStore) ≠
        ConvResult.invalidAmount := by
  obtain ⟨h1, -, h3, h4⟩ := c3_precondition_order (.fin 5) "USD" "EUR" []
  obtain ⟨-, h2, -, -⟩ := c3_precondition_order .nan "USD" "EUR" []
  refine ⟨h1, h2 rfl, h3 ?_ rfl, h4⟩
  simp [jsIsNaN, jsLeZero]

/-- C2 counterexample: with a fetcher failing on attempt 0 and succeeding
on attempt 1 (second of three), the single backoff delay slept is 1000ms,
not 2000ms. -/
theorem c2_backoff_counterexample :
    (fetchRates fetcherSecond true none ⟨[], false, false⟩ 3).delays = [1000]
    ∧ (fetchRates fetcherSecond true none ⟨[], false, false⟩ 3).delays ≠
        [2000] := by
  constructor
  · rfl
  · intro h
    rw [show (fetchRates fetcherSecond true none ⟨[], false, false⟩ 3).delays
        = [1000] from rfl] at h
    simp at h

/-- C2 (amended): for any fetcher failing attempt 0 and succeeding on
attempt 1 of maxRetries = 3, exactly one backoff delay occurs and it is
2^0 * 1000 = 1000ms (0-based attempt indices), the resulting store is the
fetched rates with the self-rate injected, rates are loaded, and the
offline flag is clear. -/
theorem c2_single_backoff (fetcher : ℕ → Option FetchData) (db : Bool)
    (cache : Option Snapshot) (st : SessionState) (d : FetchData)
    (h0 : fetcher 0 = none) (h1 : fetcher 1 = some d) :
    (fetchRates fetcher db cache st 3).delays = [2 ^ 0 * 1000]
    ∧ (fetchRates fetcher db cache st 3).state.isOfflineMode = false
    ∧ (fetchRates fetcher db cache st 3).state.hasRatesLoaded = true
    ∧ (fetchRates fetcher db cache st 3).state.currencyRates =
        storeSet d.rates d.base (.fin 1)
    ∧ (fetchRates fetcher db cache st 3).success = true := by
  refine ⟨?_, ?_, ?_, ?_, ?_⟩ <;>
    simp [fetchRates, fetchRatesGo, h0, h1]

/-- Witness for C2 (amended) with the concrete second-attempt fetcher. -/
theorem c2_single_backoff_witness :
    (fetchRates fetcherSecond true none ⟨[], false, false⟩ 3).delays =
        [2 ^ 0 * 1000]
    ∧ (fetchRates fetcherSecond true none ⟨[], false, false⟩ 3).state.isOfflineMode
        = false
    ∧ (fetchRates fetcherSecond true none ⟨[], false, false⟩ 3).state.hasRatesLoaded
        = true
    ∧ (fetchRates fetcherSecond true none ⟨[], false, false⟩ 3).state.currencyRates
        = storeSet [("EUR", .fin (9 / 10))] "USD" (.fin 1)
    ∧ (fetchRates fetcherSecond true none ⟨[], false, false⟩ 3).success = true :=
  c2_single_backoff fetcherSecond true none ⟨[], false, false⟩
    ⟨"USD", [("EUR", .fin (9 / 10))]⟩ rfl rfl

/-- All attempts failing leaves the cache-fallback result: snapshot rates
installed, offline and loaded flags set, call reported successful. -/
theorem fetchRatesGo_all_fail (fetcher : ℕ → Option FetchData)
    (snap : Snapshot) (st : SessionState) (hf : ∀ i, fetcher i = none) :
    ∀ fuel i, 1 ≤ fuel →
      (fetchRatesGo fetcher true (some snap) st i fuel).state =
        ⟨snap.rates, true, true⟩
      ∧ (fetchRatesGo fetcher true (some snap) st i fuel).cache = some snap
      ∧ (fetchRatesGo fetcher true (some snap) st i fuel).success = true := by
  intro fuel
  induction fuel with
  | zero => intro i h; exact absurd h (by omega)
  | succ rem ih =>
    intro i _
    by_cases hrem : rem = 0
    · subst hrem
      simp [fetchRatesGo, hf i]
    · have h1 : 1 ≤ rem := Nat.one_le_iff_ne_zero.mpr hrem
      simp only [fetchRatesGo, hf i, hrem, if_false]
      exact ih (i + 1) h1

/-- C4: when the live fetch fails on every attempt of at least one
attempt and the cache holds a snapshot, the final store equals the cached
snapshot's rates, the offline flag is set, rates count as loaded, and the
call returns true. -/
theorem c4_cache_fallback (fetcher : ℕ → Option FetchData) (snap : Snapshot)
    (st : SessionState) (retries : ℕ) (hr : 1 ≤ retries)
    (hf : ∀ i, fetcher i = none) :
    (fetchRates fetcher true (some snap) st retries).state.currencyRates =
        snap.rates
    ∧ (fetchRates fetcher true (some snap) st retries).state.isOfflineMode = true
    ∧ (fetchRates fetcher true (some snap) st retries).state.hasRatesLoaded = true
    ∧ (fetchRates fetcher true (some snap) st retries).success = true := by
  obtain ⟨h1, h2, h3⟩ := fetchRatesGo_all_fail fetcher snap
    ⟨st.currencyRates, false, st.hasRatesLoaded⟩ hf retries 0 hr
  simp [fetchRates, h1, h3]

/-- Witness for C4 with an always-failing fetcher and the demo snapshot,
at the default three retries. -/
theorem c4_cache_fallback_witness :
    (fetchRates fetcherFails true (some demoSnapshot) ⟨[], false, false⟩ 3).state.currencyRates
        = demoSnapshot.rates
    ∧ (fetchRates fetcherFails true (some demoSnapshot) ⟨[], false, false⟩ 3).state.isOfflineMode
        = true
    ∧ (fetchRates fetcherFails true (some demoSnapshot) ⟨[], false, false⟩ 3).state.hasRatesLoaded
        = true
    ∧ (fetchRates fetcherFails true (some demoSnapshot) ⟨[], false, false⟩ 3).success
        = true :=
  c4_cache_fallback fetcherFails demoSnapshot ⟨[], false, false⟩ 3
    (by omega) (fun _ => rfl)

/-- C5: whenever the filtered, date-sorted point series has at least two
points, the analyzer returns the trend summary built from its first and
last points: absoluteChange = end.rate - start.rate, percentChange =
(absoluteChange / start.rate) * 100 rounded to 2 decimals, direction
increased when the change is > 0, decreased when < 0, else stable. -/
theorem c5_trend_summary (entries : List HistEntry)
    (h2 : 2 ≤ (histPoints entries).length) :
    fetchHistoricalRates true false (.ok (some entries)) =
      HistResult.trend ((histPoints entries).headD dummyPoint)
        ((histPoints entries).getLastD dummyPoint)
        (jsSub ((histPoints entries).getLastD dummyPoint).rate
          ((histPoints entries).headD dummyPoint).rate)
        (jsToFixed 2 (jsMul (jsDiv
            (jsSub ((histPoints entries).getLastD dummyPoint).rate
              ((histPoints entries).headD dummyPoint).rate)
            ((histPoints entries).headD dummyPoint).rate) (.fin 100)))
        (if jsGtZero (jsSub ((histPoints entries).getLastD dummyPoint).rate
              ((histPoints entries).headD dummyPoint).rate)
          then Direction.increased
          else if jsLtZero (jsSub ((histPoints entries).getLastD dummyPoint).rate
              ((histPoints entries).headD dummyPoint).rate)
          then Direction.decreased
          else Direction.stable) := by
  have hne : entries.isEmpty = false := by
    cases entries with
    | nil => simp [histPoints, histFilter, histSort] at h2
    | cons a l => rfl
  simp [fetchHistoricalRates, hne, Nat.not_lt.mpr h2]

/-- Witness for C5: the two-point series (1.10, 1.20) yields direction
increased with percentChange 9.09. -/
theorem c5_trend_summary_witness :
    fetchHistoricalRates true false (.ok (some twoPointEntries)) =
      HistResult.trend ⟨1, .fin (11 / 10)⟩ ⟨2, .fin (6 / 5)⟩
        (.fin (1 / 10)) (.fin (909 / 100)) Direction.increased := by
  have ht1 : jsTruthy (.fin (11 / 10)) = true := by norm_num [jsTruthy]
  have ht2 : jsTruthy (.fin (6 / 5)) = true := by norm_num [jsTruthy]
  have hpts : histPoints twoPointEntries =
      [⟨1, .fin (11 / 10)⟩, ⟨2, .fin (6 / 5)⟩] := by
    simp [histPoints, histFilter, histSort, histInsert, twoPointEntries,
      ht1, ht2]
  have h := c5_trend_summary twoPointEntries (by rw [hpts]; norm_num)
  rw [h, hpts]
  have hfloor : jsRoundHalfUp ((10000 : ℚ) / 11) = 909 := by
    rw [jsRoundHalfUp, Int.floor_eq_iff]
    norm_num
  norm_num [jsSub, jsDiv, jsMul, jsToFixed, jsGtZero, jsLtZero, toFixedQ,
    hfloor]

/-- C8: for a non-empty fetched series, whenever fewer than two points
survive the target-currency filter, the analyzer returns the Empty
("not enough data points") result carrying the surviving point count. -/
theorem c8_insufficient_points (entries : List HistEntry) (hne : entries ≠ [])
    (hlt : (histPoints entries).length < 2) :
    fetchHistoricalRates true false (.ok (some entries)) =
      HistResult.empty (histPoints entries).length := by
  have hne2 : entries.isEmpty = false := by
    cases entries with
    | nil => exact absurd rfl hne
    | cons a l => rfl
  simp [fetchHistoricalRates, hne2, hlt]

/-- Witness for C8: a single-point series yields Empty with count 1. -/
theorem c8_insufficient_points_witness :
    fetchHistoricalRates true false (.ok (some onePointEntries)) =
      HistResult.empty 1 := by
  have ht : jsTruthy (.fin (3 / 2)) = true := by norm_num [jsTruthy]
  have hpts : histPoints onePointEntries = [⟨1, .fin (3 / 2)⟩] := by
    simp [histPoints, histFilter, histSort, histInsert, onePointEntries, ht]
  have h := c8_insufficient_points onePointEntries
    (by simp [onePointEntries]) (by rw [hpts]; norm_num)
  rw [h, hpts]
  rfl

/-- One fetchRates call preserves the base-self-rate invariant, for any
fetcher whose successful responses carry the requested base: a live
success installs rates with the self-rate injected (and writes them to
the cache), a cache fallback installs rates the invariant already covers,
and a total failure clears the loaded flag. -/
theorem fetchRatesGo_baseSelfRate (fetcher : ℕ → Option FetchData)
    (db : Bool) (cache : Option Snapshot) (st : SessionState)
    (hbase : ∀ i d, fetcher i = some d → d.base = apiBaseCurrency)
    (hst : st.hasRatesLoaded = true →
      storeLookup st.currencyRates apiBaseCurrency = some (.fin 1))
    (hc : ∀ snap, cache = some snap →
      storeLookup snap.rates apiBaseCurrency = some (.fin 1)) :
    ∀ fuel i,
      ((fetchRatesGo fetcher db cache st i fuel).state.hasRatesLoaded = true →
        storeLookup (fetchRatesGo fetcher db cache st i fuel).state.currencyRates
          apiBaseCurrency = some (.fin 1))
      ∧ (∀ snap, (fetchRatesGo fetcher db cache st i fuel).cache = some snap →
          storeLookup snap.rates apiBaseCurrency = some (.fin 1)) := by
  intro fuel
  induction fuel with
  | zero => intro i; exact ⟨hst, hc⟩
  | succ rem ih =>
    intro i
    cases hfi : fetcher i with
    | some d =>
      have hb : d.base = apiBaseCurrency := hbase i d hfi
      constructor
      · intro _
        simp only [fetchRatesGo, hfi]
        rw [hb]
        exact storeLookup_storeSet d.rates apiBaseCurrency (.fin 1)
      · intro snap hsnap
        simp only [fetchRatesGo, hfi] at hsnap
        by_cases hw : db && !(storeSet d.rates d.base (.fin 1)).isEmpty
        · rw [if_pos hw] at hsnap
          cases hsnap
          rw [hb]
          exact storeLookup_storeSet d.rates apiBaseCurrency (.fin 1)
        · rw [if_neg hw] at hsnap
          exact hc snap hsnap
    | none =>
      by_cases hrem : rem = 0
      · subst hrem
        cases db with
        | false =>
          refine ⟨?_, ?_⟩
          · intro hl
            simp [fetchRatesGo, hfi] at hl
          · intro snap hsnap
            simp [fetchRatesGo, hfi] at hsnap
            exact hc snap (by rw [hsnap])
        | true =>
          cases cache with
          | none =>
            refine ⟨?_, ?_⟩
            · intro hl
              simp [fetchRatesGo, hfi] at hl
            · intro snap hsnap
              simp [fetchRatesGo, hfi] at hsnap
          | some snap0 =>
            refine ⟨?_, ?_⟩
            · intro _
              simp [fetchRatesGo, hfi]
              exact hc snap0 rfl
            · intro snap hsnap
              simp [fetchRatesGo, hfi] at hsnap
              exact hc snap (by rw [hsnap])
      · have h1 := ih (i + 1)
        constructor
        · intro hl
          simp only [fetchRatesGo, hfi, if_neg hrem] at hl ⊢
          exact h1.1 hl
        · intro snap hsnap
          simp only [fetchRatesGo, hfi, if_neg hrem] at hsnap
          exact h1.2 snap hsnap

/-- C9: starting from the fresh session and running any sequence of
fetchRates calls whose successful responses carry the base currency USD,
the base-self-rate invariant holds: whenever rates are loaded the store
maps USD to exactly 1, and every cached snapshot's rates do too. -/
theorem c9_base_self_rate (db : Bool) (fs : List (ℕ → Option FetchData))
    (hbase : ∀ f ∈ fs, ∀ i d, f i = some d → d.base = apiBaseCurrency) :
    baseSelfRate (runTrace db fs initSys) := by
  have key : ∀ (gs : List (ℕ → Option FetchData)) (s : SysState),
      (∀ f ∈ gs, ∀ i d, f i = some d → d.base = apiBaseCurrency) →
      baseSelfRate s → baseSelfRate (runTrace db gs s) := by
    intro gs
    induction gs with
    | nil => intro s _ hs; exact hs
    | cons f rest ih =>
      intro s hb hs
      have hstep : baseSelfRate (runFetch db f s) := by
        have h := fetchRatesGo_baseSelfRate f db s.cache
          ⟨s.session.currencyRates, false, s.session.hasRatesLoaded⟩
          (hb f (List.mem_cons_self f rest)) hs.1 hs.2 3 0
        exact ⟨h.1, h.2⟩
      exact ih (runFetch db f s)
        (fun g hg => hb g (List.mem_cons_of_mem f hg)) hstep
  refine key fs initSys hbase ⟨?_, ?_⟩
  · intro h
    simp [initSys] at h
  · intro snap h
    simp [initSys] at h

/-- Witness for C9: a one-call trace with an immediately succeeding
USD-based fetcher leaves the store mapping USD to 1. -/
theorem c9_base_self_rate_witness :
    storeLookup (runTrace true [fetcherFirst] initSys).session.currencyRates
      apiBaseCurrency = some (.fin 1) := by
  have hbase : ∀ f ∈ [fetcherFirst], ∀ i d,
      f i = some d → d.base = apiBaseCurrency := by
    intro f hf i d hd
    rw [List.mem_singleton] at hf
    subst hf
    cases hd
    rfl
  have hl : (runTrace true [fetcherFirst] initSys).session.hasRatesLoaded
      = true := rfl
  exact (c9_base_self_rate true [fetcherFirst] hbase).1 hl

end CurrencyApp
